import Mathlib

/-!
Verification development for the media-search daily aggregation engine
(2020-media-search). We embed the core logic of the notebooks'
aggregation queries — partition-range selection, session extraction,
funnel matching and aggregation — as executable Lean definitions and
prove the specified properties about them.

Timestamps are modelled as natural numbers (the SQL string comparisons
on fixed-width ISO timestamps coincide with chronological order);
`TO_DATE` is truncation to the UTC day.
-/

/-- `TO_DATE` on a timestamp: the UTC calendar day (timestamps counted in
seconds, 86400 seconds per day). -/
def toDate (ts : Nat) : Nat := ts / 86400

/-- `MIN(...)` over a list of timestamps, `none` when the list is empty
(SQL aggregate over an empty group produces no row). -/
def minDtAux : List Nat → Option Nat
  | [] => none
  | d :: ds =>
    match minDtAux ds with
    | none => some d
    | some m => some (min d m)

theorem minDtAux_none_iff {l : List Nat} : minDtAux l = none ↔ l = [] := by
  constructor
  · intro h
    cases l with
    | nil => rfl
    | cons d ds =>
      simp only [minDtAux] at h
      cases hds : minDtAux ds with
      | none => rw [hds] at h; cases h
      | some m => rw [hds] at h; cases h
  · intro h; subst h; rfl

theorem minDtAux_mem : ∀ {l : List Nat} {t : Nat}, minDtAux l = some t → t ∈ l := by
  intro l
  induction l with
  | nil => intro t h; simp [minDtAux] at h
  | cons d ds ih =>
    intro t h
    simp only [minDtAux] at h
    cases hds : minDtAux ds with
    | none =>
      rw [hds] at h
      injection h with h
      subst h
      exact List.mem_cons_self d ds
    | some m =>
      rw [hds] at h
      injection h with h
      subst h
      rcases Nat.le_total d m with hdm | hmd
      · have hmin : min d m = d := by omega
        rw [hmin]; exact List.mem_cons_self d ds
      · have hmin : min d m = m := by omega
        rw [hmin]; exact List.mem_cons_of_mem d (ih hds)

theorem minDtAux_le : ∀ {l : List Nat} {t : Nat}, minDtAux l = some t →
    ∀ x ∈ l, t ≤ x := by
  intro l
  induction l with
  | nil => intro t h; simp [minDtAux] at h
  | cons d ds ih =>
    intro t h x hx
    simp only [minDtAux] at h
    cases hds : minDtAux ds with
    | none =>
      rw [hds] at h
      injection h with h
      rw [minDtAux_none_iff] at hds
      subst hds
      rcases List.mem_singleton.mp hx with rfl
      omega
    | some m =>
      rw [hds] at h
      injection h with h
      rcases List.mem_cons.mp hx with rfl | hx
      · subst h; omega
      · subst h; have := ih hds x hx; omega

theorem minDtAux_isSome_of_mem {l : List Nat} {x : Nat} (hx : x ∈ l) :
    (minDtAux l).isSome := by
  cases hmin : minDtAux l with
  | none => rw [minDtAux_none_iff] at hmin; subst hmin; cases hx
  | some m => rfl

theorem minDtAux_eq_of_mem_of_le {l : List Nat} {t : Nat}
    (hmem : t ∈ l) (hle : ∀ x ∈ l, t ≤ x) : minDtAux l = some t := by
  cases hmin : minDtAux l with
  | none =>
    rw [minDtAux_none_iff] at hmin
    subst hmin
    cases hmem
  | some m =>
    have h1 : m ≤ t := minDtAux_le hmin t hmem
    have h2 : t ≤ m := hle m (minDtAux_mem hmin)
    rw [Nat.le_antisymm h1 h2]

/-! ## PartitionRangeSelector

`make_partition_statement` from the notebooks, modelled as a structured
predicate over the partition columns `(year, month, day)` rather than
interpolated SQL text: the function's two return branches become the two
constructors, carrying exactly the numbers the f-strings interpolate. -/

/-- A calendar date / partition key `(year, month, day)`. -/
structure SimpleDate where
  year : Nat
  month : Nat
  day : Nat
deriving DecidableEq, Repr

/-- The partition-selection statement returned by `make_partition_statement`:
either the single-month `year = Y AND month = M AND day BETWEEN D1 AND D2`
form, or the disjunction of two month-scoped clauses
`(year = Y1 AND month = M1 AND day >= D1) OR (year = Y2 AND month = M2 AND day <= D2)`. -/
inductive PartitionStatement where
  | singleMonth (year month day1 day2 : Nat)
  | twoMonths (year1 month1 day1 year2 month2 day2 : Nat)
deriving DecidableEq, Repr

/-- `make_partition_statement(start_ts, end_ts)`: if start and end share
year and month, emit the `BETWEEN` statement on the days; otherwise emit
the disjunction of the two month-scoped clauses. (The optional `prefix`
argument of the source only qualifies column names in the rendered SQL
text and does not affect which partitions are selected.) -/
def make_partition_statement (start_ts end_ts : SimpleDate) : PartitionStatement :=
  if start_ts.year = end_ts.year ∧ start_ts.month = end_ts.month then
    PartitionStatement.singleMonth start_ts.year start_ts.month start_ts.day end_ts.day
  else
    PartitionStatement.twoMonths start_ts.year start_ts.month start_ts.day
      end_ts.year end_ts.month end_ts.day

/-- Whether a partition key satisfies a partition statement. -/
def PartitionStatement.holds : PartitionStatement → SimpleDate → Prop
  | PartitionStatement.singleMonth y m d1 d2, p =>
      p.year = y ∧ p.month = m ∧ d1 ≤ p.day ∧ p.day ≤ d2
  | PartitionStatement.twoMonths y1 m1 d1 y2 m2 d2, p =>
      (p.year = y1 ∧ p.month = m1 ∧ d1 ≤ p.day) ∨
      (p.year = y2 ∧ p.month = m2 ∧ p.day ≤ d2)

instance (s : PartitionStatement) (p : SimpleDate) : Decidable (s.holds p) := by
  cases s <;> simp only [PartitionStatement.holds] <;> infer_instance

/-- Chronological order on calendar dates (lexicographic on year, month, day). -/
def SimpleDate.le (a b : SimpleDate) : Prop :=
  a.year < b.year ∨
  (a.year = b.year ∧ (a.month < b.month ∨ (a.month = b.month ∧ a.day ≤ b.day)))

instance (a b : SimpleDate) : Decidable (a.le b) := by
  simp only [SimpleDate.le]; infer_instance

/-- A date is a valid calendar date when its month lies in 1..12 (day bounds
are not needed for the partition-statement proofs). -/
def SimpleDate.validMonth (d : SimpleDate) : Prop := 1 ≤ d.month ∧ d.month ≤ 12

instance (d : SimpleDate) : Decidable d.validMonth := by
  simp only [SimpleDate.validMonth]; infer_instance

/-- Linear month index, used to express "same or adjacent calendar month". -/
def monthIndex (d : SimpleDate) : Nat := d.year * 12 + d.month

theorem monthIndex_mono {a b : SimpleDate} (hva : a.validMonth) (hvb : b.validMonth)
    (h : a.le b) : monthIndex a ≤ monthIndex b := by
  rcases hva with ⟨ha1, ha2⟩
  rcases hvb with ⟨hb1, hb2⟩
  rcases h with h | ⟨hy, h⟩
  · simp only [monthIndex]; omega
  · rcases h with h | ⟨hm, _⟩
    · simp only [monthIndex]; omega
    · simp only [monthIndex]; omega

theorem monthIndex_inj {a b : SimpleDate} (hva : a.validMonth) (hvb : b.validMonth)
    (h : monthIndex a = monthIndex b) : a.year = b.year ∧ a.month = b.month := by
  rcases hva with ⟨ha1, ha2⟩
  rcases hvb with ⟨hb1, hb2⟩
  simp only [monthIndex] at h
  constructor <;> omega

/-! ## MediaSearch interaction events

Model of rows of `event.mediawiki_mediasearch_interaction` as used by the
MediaSearch aggregation queries. The queries read the event time as
`coalesce(dt, meta.dt)`; we model `dt` as optional with `meta_dt` always
present. The partition columns only serve scan pruning (see
`make_partition_statement`); the queries below consume the already-pruned
stream. -/

structure MsEvent where
  web_pageview_id : Nat
  dt : Option Nat
  meta_dt : Nat
  action : String
  search_filter_type : String
  search_filter_value : String
  search_result_position : Nat
deriving DecidableEq, Repr

/-- `coalesce(dt, meta.dt)` — the event timestamp used throughout. -/
def evDt (e : MsEvent) : Nat := e.dt.getD e.meta_dt

/-- The distinct `web_pageview_id` values occurring in the stream
(the grouping keys of `GROUP BY web_pageview_id`). -/
def msSessionIds (ms : List MsEvent) : List Nat :=
  (ms.map (fun e => e.web_pageview_id)).dedup

/-- The `mediasearch_sessions` CTE (identical in all three MediaSearch
queries): group events by `web_pageview_id`, keep `MIN(coalesce(dt, meta.dt))`
over `action = "search_new"` events as `session_start_dt`, and keep only
groups with `TO_DATE(session_start_dt) = today` (the `HAVING` clause). -/
def mediasearch_sessions (ms : List MsEvent) (today : Nat) : List (Nat × Nat) :=
  (msSessionIds ms).filterMap (fun sid =>
    (minDtAux ((ms.filter (fun e =>
        e.web_pageview_id == sid && e.action == "search_new")).map evDt)).bind
      (fun t => if toDate t = today then some (sid, t) else none))

/-- The `mediasearch_filters` CTE of the success query: the distinct session
ids with a `filter_change` event before the cutoff. Note the source places
no lower bound on the event time relative to `session_start_dt`. -/
def mediasearch_filters (ms : List MsEvent) (today limit : Nat) : List Nat :=
  (mediasearch_sessions ms today).filterMap (fun st =>
    if ms.any (fun e => e.web_pageview_id == st.1 && e.action == "filter_change"
        && decide (evDt e < limit)) then some st.1 else none)

/-- The `mediasearch_quickview` CTE: sessions with a `result_click` event
strictly after `session_start_dt` and before the cutoff, paired with
`MIN(coalesce(dt, meta.dt))` over those events (`first_click_dt`). -/
def mediasearch_quickview (ms : List MsEvent) (today limit : Nat) : List (Nat × Nat) :=
  (mediasearch_sessions ms today).filterMap (fun st =>
    (minDtAux ((ms.filter (fun e =>
        e.web_pageview_id == st.1 && e.action == "result_click"
        && decide (st.2 < evDt e) && decide (evDt e < limit))).map evDt)).map
      (fun fc => (st.1, fc)))

/-- The four per-session flags of the `mediasearch_result_actions` CTE;
`MAX(IF(action = ..., 1, NULL))` is non-NULL exactly when some qualifying
event has that action, so each flag is a boolean. -/
structure ResultActions where
  file_page_click : Bool
  filename_copy : Bool
  wikitext_copy : Bool
  played_media : Bool
deriving DecidableEq, Repr

/-- The `mediasearch_result_actions` CTE: for each quickview session, the
four action flags over events strictly after `first_click_dt` and before
the cutoff. -/
def mediasearch_result_actions (ms : List MsEvent) (today limit : Nat) :
    List (Nat × ResultActions) :=
  (mediasearch_quickview ms today limit).map (fun qv =>
    let evs := ms.filter (fun e => e.web_pageview_id == qv.1
        && decide (qv.2 < evDt e) && decide (evDt e < limit))
    (qv.1,
      { file_page_click := evs.any (fun e => e.action == "quickview_more_details_click")
        filename_copy := evs.any (fun e => e.action == "quickview_filename_copy")
        wikitext_copy := evs.any (fun e => e.action == "quickview_wikitext_link_copy")
        played_media := evs.any (fun e => e.action == "quickview_media_play") }))

/-- The join rows feeding the `median_click_position` CTE for one date:
the `search_result_position` of every `result_click` event strictly after
its session's `session_start_dt` and before the cutoff, for sessions whose
start date is `d`. -/
def clickPositions (ms : List MsEvent) (today limit d : Nat) : List Nat :=
  ((mediasearch_sessions ms today).filter (fun st => toDate st.2 == d)).flatMap
    (fun st => (ms.filter (fun e =>
        e.web_pageview_id == st.1 && e.action == "result_click"
        && decide (st.2 < evDt e) && decide (evDt e < limit))).map
      (fun e => e.search_result_position))

/-! ## Median click position and the success aggregation -/

/-- Insert into a sorted list of positions (ascending). -/
def insertSorted (x : Nat) : List Nat → List Nat
  | [] => [x]
  | y :: ys => if x ≤ y then x :: y :: ys else y :: insertSorted x ys

/-- Sort a list of positions ascending (insertion sort). -/
def sortPositions (l : List Nat) : List Nat := l.foldr insertSorted []

/-- Spark's exact `percentile(col, 0.5)`: sort the `n` values, take the
virtual index `0.5 * (n - 1)` and linearly interpolate between the two
neighbouring sorted values (at positions `⌊(n-1)/2⌋` and `⌈(n-1)/2⌉ = ⌊n/2⌋`,
with fractional part `(n-1)/2 - ⌊(n-1)/2⌋`); `none` on the empty group
(SQL produces no row for an empty group). -/
def percentileHalf (l : List Nat) : Option ℚ :=
  match sortPositions l with
  | [] => none
  | x :: xs =>
    let s := x :: xs
    let n := s.length
    let lo : Nat := (n - 1) / 2
    let hi : Nat := n / 2
    let frac : ℚ := ((n - 1 : Nat) : ℚ) / 2 - (lo : ℚ)
    let xlo : ℚ := (s.getD lo 0 : Nat)
    let xhi : ℚ := (s.getD hi 0 : Nat)
    some (xlo + frac * (xhi - xlo))

/-- The `median_click_position` CTE for a given date: Spark
`percentile(search_result_position, 0.5)` over the qualifying click
positions of that date's sessions (no row when there are none). -/
def median_click_position (ms : List MsEvent) (today limit d : Nat) : Option ℚ :=
  percentileHalf (clickPositions ms today limit d)

/-- One output row of `mediasearch_success_aggregates`. -/
structure SuccessRow where
  log_date : Nat
  num_mediasearch_sessions : Nat
  num_used_filter : Nat
  num_result_clicked : Nat
  num_filepage_clicked : Nat
  num_filename_copied : Nat
  num_wikitext_copied : Nat
  num_media_played : Nat
  median_position_clicked : ℚ
deriving DecidableEq, Repr

/-- The distinct `TO_DATE(session_start_dt)` grouping keys of
`mediasearch_stats`. -/
def statDates (ms : List MsEvent) (today : Nat) : List Nat :=
  ((mediasearch_sessions ms today).map (fun st => toDate st.2)).dedup

/-- The `mediasearch_stats` CTE joined with `median_click_position` and the
final `coalesce(mcp.median_click_position, 0.0)`: one row per start date,
counting sessions and `COUNT(...)` of the non-NULL flags contributed by the
left-joined CTEs, with the sentinel `0.0` median when the date has no
qualifying result clicks. -/
def mediasearch_success_rows (ms : List MsEvent) (today limit : Nat) : List SuccessRow :=
  (statDates ms today).map (fun d =>
    let g := (mediasearch_sessions ms today).filter (fun st => toDate st.2 == d)
    let qvIds := (mediasearch_quickview ms today limit).map (fun qv => qv.1)
    let ras := mediasearch_result_actions ms today limit
    let raFlag := fun (sid : Nat) (f : ResultActions → Bool) =>
      match ras.lookup sid with
      | some ra => f ra
      | none => false
    { log_date := d
      num_mediasearch_sessions := g.length
      num_used_filter := (g.filter (fun st =>
        (mediasearch_filters ms today limit).contains st.1)).length
      num_result_clicked := (g.filter (fun st => qvIds.contains st.1)).length
      num_filepage_clicked := (g.filter (fun st =>
        raFlag st.1 (fun ra => ra.file_page_click))).length
      num_filename_copied := (g.filter (fun st =>
        raFlag st.1 (fun ra => ra.filename_copy))).length
      num_wikitext_copied := (g.filter (fun st =>
        raFlag st.1 (fun ra => ra.wikitext_copy))).length
      num_media_played := (g.filter (fun st =>
        raFlag st.1 (fun ra => ra.played_media))).length
      median_position_clicked := (median_click_position ms today limit d).getD 0 })

/-! ## Filter-usage aggregations -/

/-- The `filters_per_session` CTE: for each session of interest, the number
of its `filter_change` events before the cutoff (an inner join, so sessions
with no such event produce no row). As in the source, there is no lower
bound on the event time relative to the session start. -/
def filters_per_session (ms : List MsEvent) (today limit : Nat) :
    List (Nat × Nat × Nat) :=
  (mediasearch_sessions ms today).filterMap (fun st =>
    let n := (ms.filter (fun e => e.web_pageview_id == st.1
        && e.action == "filter_change" && decide (evDt e < limit))).length
    if n = 0 then none else some (toDate st.2, st.1, n))

/-- Modelled from the spec: the invariant of §3 — "every event consumed by
the FunnelMatcher for a session must have `timestamp >= session.start_time`
and `timestamp < cutoff_time`" — applied to the filter-change attribution:
like `filters_per_session` but counting only filter changes with
`evDt e >= session_start_dt`. Used only to compare the code's behaviour
against the spec's stated window. -/
def filters_per_session_windowed (ms : List MsEvent) (today limit : Nat) :
    List (Nat × Nat × Nat) :=
  (mediasearch_sessions ms today).filterMap (fun st =>
    let n := (ms.filter (fun e => e.web_pageview_id == st.1
        && e.action == "filter_change" && decide (st.2 ≤ evDt e)
        && decide (evDt e < limit))).length
    if n = 0 then none else some (toDate st.2, st.1, n))

/-- The final select of `filters_per_session_query`: group the per-session
rows by `num_filter_changes`, keep `FIRST_VALUE(log_date)` and the number
of sessions; these rows are what `INSERT INTO` appends. -/
def filters_per_session_agg (ms : List MsEvent) (today limit : Nat) :
    List (Nat × Nat × Nat) :=
  let fps := filters_per_session ms today limit
  ((fps.map (fun r => r.2.2)).dedup).map (fun n =>
    let grp := fps.filter (fun r => r.2.2 == n)
    (((grp.head?).map (fun r => r.1)).getD 0, n, grp.length))

/-- The join rows of the `mediasearch_filter_aggregates` CTE: one row per
(session of interest, `filter_change` event before the cutoff), carrying
the grouping attributes `(TO_DATE(session_start_dt), search_filter_type,
search_filter_value)`. -/
def filterJoinRows (ms : List MsEvent) (today limit : Nat) :
    List (Nat × String × String) :=
  (mediasearch_sessions ms today).flatMap (fun st =>
    (ms.filter (fun e => e.web_pageview_id == st.1
        && e.action == "filter_change" && decide (evDt e < limit))).map
      (fun e => (toDate st.2, e.search_filter_type, e.search_filter_value)))

/-- The `mediasearch_filter_aggregates` CTE: `COUNT(1)` grouped by
`(log_date, search_filter_type, search_filter_value)`. -/
def mediasearch_filter_aggregates (ms : List MsEvent) (today limit : Nat) :
    List ((Nat × String × String) × Nat) :=
  ((filterJoinRows ms today limit).dedup).map (fun k =>
    (k, (filterJoinRows ms today limit).count k))

/-- One output row of `mediasearch_filter_change_aggregates`. -/
structure FilterChangeRow where
  log_date : Nat
  filter_type : String
  filter_value : String
  num_changes : Nat
deriving DecidableEq, Repr

/-- The final select of `filter_change_aggregate_query`:
`IF(search_filter_value = '', 'reset', search_filter_value)` rewrites the
empty value to the sentinel before the rows are appended. -/
def filter_change_rows (ms : List MsEvent) (today limit : Nat) :
    List FilterChangeRow :=
  (mediasearch_filter_aggregates ms today limit).map (fun kn =>
    { log_date := kn.1.1
      filter_type := kn.1.2.1
      filter_value := if kn.1.2.2 == "" then "reset" else kn.1.2.2
      num_changes := kn.2 })

/-- `INSERT INTO table ... SELECT rows`: a pure append to the output
dataset; no existing rows are checked or removed. -/
def insertInto {α : Type} (table rows : List α) : List α := table ++ rows

/-- One run of the filters-per-session aggregation job: compute the
aggregate rows for the day and append them to the output table. -/
def runFiltersPerSessionJob (table : List (Nat × Nat × Nat))
    (ms : List MsEvent) (today limit : Nat) : List (Nat × Nat × Nat) :=
  insertInto table (filters_per_session_agg ms today limit)

/-! ## The VE media funnel (`edit_funnel_query`)

Events of `event.editattemptstep` and `event.visualeditorfeatureuse` as
consumed by the funnel query, and the six chained step CTEs. Each step
`i > 1` is an inner join against the previous step with
`vefu.dt >= step_{i-1}.dt AND vefu.dt < time_limit_ts`, grouped by
session with `MIN(dt)`. -/

structure EsEvent where
  editing_session_id : Nat
  dt : Nat
  page_ns : Int
  action : String
  is_oversample : Bool
  editor_interface : String
deriving DecidableEq, Repr

structure VefuEvent where
  editingsessionid : Nat
  dt : Nat
  feature : String
  action : String
deriving DecidableEq, Repr

/-- The distinct `editing_session_id` grouping keys of `step_1`. -/
def esSessionIds (es : List EsEvent) : List Nat :=
  (es.map (fun e => e.editing_session_id)).dedup

/-- `step_1`: VE edit sessions — group qualifying `init` events
(non-oversample, visualeditor, `dt` in `[start_date, end_date)`) by
session id, keeping `FIRST_VALUE(event.page_ns)` and `MIN(dt)`. -/
def step1 (es : List EsEvent) (start_date end_date : Nat) (sid : Nat) :
    Option (Int × Nat) :=
  let evs := es.filter (fun e => e.editing_session_id == sid
      && decide (start_date ≤ e.dt) && decide (e.dt < end_date)
      && e.is_oversample == false && e.editor_interface == "visualeditor"
      && e.action == "init")
  match evs, minDtAux (evs.map (fun e => e.dt)) with
  | e :: _, some t => some (e.page_ns, t)
  | _, _ => none

/-- One chained funnel step over `visualeditorfeatureuse`: given the
previous step's per-session timestamp, the `MIN(vefu.dt)` over `media`
events whose action satisfies the step's predicate, with
`vefu.dt >= step_prev.dt` (non-strict) and `vefu.dt < time_limit_ts`;
`none` when the session did not complete the previous step or no
qualifying event exists. -/
def nextStep (vefu : List VefuEvent) (actPred : String → Bool) (limit : Nat)
    (prev : Nat → Option Nat) (sid : Nat) : Option Nat :=
  (prev sid).bind (fun tprev =>
    minDtAux ((vefu.filter (fun v => v.editingsessionid == sid
        && v.feature == "media" && actPred v.action
        && decide (tprev ≤ v.dt) && decide (v.dt < limit))).map (fun v => v.dt)))

/-- `step_2`: open the media dialog (`action = open_action`). -/
def step2 (es : List EsEvent) (vefu : List VefuEvent)
    (start_date end_date limit : Nat) (open_action : String) (sid : Nat) : Option Nat :=
  nextStep vefu (fun a => a == open_action) limit
    (fun s => (step1 es start_date end_date s).map (fun p => p.2)) sid

/-- `step_3`: search for media (`action = "search-change-query"`). -/
def step3 (es : List EsEvent) (vefu : List VefuEvent)
    (start_date end_date limit : Nat) (open_action : String) (sid : Nat) : Option Nat :=
  nextStep vefu (fun a => a == "search-change-query") limit
    (step2 es vefu start_date end_date limit open_action) sid

/-- `step_4`: confirm a search result (`action = "search-confirm-image"`). -/
def step4 (es : List EsEvent) (vefu : List VefuEvent)
    (start_date end_date limit : Nat) (open_action : String) (sid : Nat) : Option Nat :=
  nextStep vefu (fun a => a == "search-confirm-image") limit
    (step3 es vefu start_date end_date limit open_action) sid

/-- `step_5`: close the media dialog (`action REGEXP close_regexp`, a
per-path predicate: a single close action or the disjunction of the two
variants). -/
def step5 (es : List EsEvent) (vefu : List VefuEvent)
    (start_date end_date limit : Nat) (open_action : String)
    (closePred : String → Bool) (sid : Nat) : Option Nat :=
  nextStep vefu closePred limit
    (step4 es vefu start_date end_date limit open_action) sid

/-- `step_6`: save the edit — `DISTINCT` sessions with a `saveSuccess`
`editattemptstep` event with `es.dt >= step_5.dt` and `es.dt < time_limit_ts`. -/
def step6 (es : List EsEvent) (vefu : List VefuEvent)
    (start_date end_date limit : Nat) (open_action : String)
    (closePred : String → Bool) (sid : Nat) : Bool :=
  match step5 es vefu start_date end_date limit open_action closePred sid with
  | none => false
  | some t5 => es.any (fun e => e.editing_session_id == sid
      && e.action == "saveSuccess" && decide (t5 ≤ e.dt) && decide (e.dt < limit))

/-- The `step_1` rows `(session id, namespace, dt)`, the left side of the
final aggregation joins. -/
def step1Sessions (es : List EsEvent) (start_date end_date : Nat) :
    List (Nat × Int × Nat) :=
  (esSessionIds es).filterMap (fun sid =>
    (step1 es start_date end_date sid).map (fun p => (sid, p.1, p.2)))

/-- One output row of `ve_media_funnel_aggregates`. -/
structure FunnelRow where
  log_date : Nat
  page_ns : Int
  path_type : String
  num_edit_sessions : Nat
  num_dialog_opens : Nat
  num_media_searches : Nat
  num_media_confirms : Nat
  num_dialog_close : Nat
  num_edit_saves : Nat
deriving DecidableEq, Repr

/-- The final select of `edit_funnel_query`: left-join the step CTEs onto
`step_1`, group by `(TO_DATE(step_1.dt), namespace)`, and count the
sessions completing each step (the `SUM(IF(... IS NOT NULL, 1, 0))` of
step 2 and the `COUNT(step_k.editing_session_id)` of steps 3–6 both count
exactly the non-NULL joins). These rows are what `INSERT INTO` appends. -/
def editFunnelRows (es : List EsEvent) (vefu : List VefuEvent)
    (start_date end_date limit : Nat) (open_action : String)
    (closePred : String → Bool) (path_type : String) : List FunnelRow :=
  let s1 := step1Sessions es start_date end_date
  ((s1.map (fun r => (toDate r.2.2, r.2.1))).dedup).map (fun key =>
    let g := s1.filter (fun r => toDate r.2.2 == key.1 && r.2.1 == key.2)
    { log_date := key.1
      page_ns := key.2
      path_type := path_type
      num_edit_sessions := g.length
      num_dialog_opens := (g.filter (fun r =>
        (step2 es vefu start_date end_date limit open_action r.1).isSome)).length
      num_media_searches := (g.filter (fun r =>
        (step3 es vefu start_date end_date limit open_action r.1).isSome)).length
      num_media_confirms := (g.filter (fun r =>
        (step4 es vefu start_date end_date limit open_action r.1).isSome)).length
      num_dialog_close := (g.filter (fun r =>
        (step5 es vefu start_date end_date limit open_action closePred r.1).isSome)).length
      num_edit_saves := (g.filter (fun r =>
        step6 es vefu start_date end_date limit open_action closePred r.1)).length })

/-! ## Execution-engine error handling

The notebooks wrap every `spark.run(query)` in
`try: ... except UnboundLocalError: pass` — the one spurious error the
execution path raises on write-only statements is swallowed, everything
else propagates. -/

/-- Python exception categories relevant to the run loop:
`UnboundLocalError` (the spurious error wmfdata raises on DDL/DML
statements) versus any other exception class, carried with its message. -/
inductive PyExc where
  | unboundLocalError
  | otherError (className msg : String)
deriving DecidableEq, Repr

/-- One guarded `spark.run` call:
`try: spark.run(q) except UnboundLocalError: pass`. -/
def sparkRunGuarded (res : Except PyExc Unit) : Except PyExc Unit :=
  match res with
  | Except.error PyExc.unboundLocalError => Except.ok ()
  | r => r

/-- The run loop of the VE funnel notebook: each path type's query is run
guarded in turn; an uncaught exception propagates out of the loop and
aborts the remaining runs. -/
def runAllGuarded : List (Except PyExc Unit) → Except PyExc Unit
  | [] => Except.ok ()
  | r :: rs =>
    match sparkRunGuarded r with
    | Except.ok _ => runAllGuarded rs
    | Except.error e => Except.error e

/-! ## Concrete example streams

Small fixed event streams used to instantiate the theorems below
(timestamps fall on day 0, so `today = 0` and the cutoff
`data_day + 1 day + 1 hour` is `90000 = 86400 + 3600`). -/

/-- Build a MediaSearch event with `dt = NULL` (so `coalesce` reads `meta.dt`). -/
def mkMs (sid t : Nat) (act ty v : String) (pos : Nat) : MsEvent :=
  { web_pageview_id := sid, dt := none, meta_dt := t, action := act,
    search_filter_type := ty, search_filter_value := v,
    search_result_position := pos }

/-- One session whose only `result_click` carries exactly the session-start
timestamp. -/
def exTieStream : List MsEvent :=
  [ mkMs 1 100 "search_new" "" "" 0,
    mkMs 1 100 "result_click" "" "" 3 ]

/-- One session with a `filter_change` event before the session start. -/
def exEarlyFilterStream : List MsEvent :=
  [ mkMs 1 100 "search_new" "" "" 0,
    mkMs 1 50 "filter_change" "mime" "tiff" 0 ]

/-- A stream with one started session and one session with no start event. -/
def exStartStream : List MsEvent :=
  [ mkMs 1 100 "search_new" "" "" 0,
    mkMs 2 50 "filter_change" "mime" "tiff" 0 ]

/-- One session with an empty-valued and a non-empty-valued filter change. -/
def exResetStream : List MsEvent :=
  [ mkMs 1 100 "search_new" "" "" 0,
    mkMs 1 200 "filter_change" "mime" "" 0,
    mkMs 1 300 "filter_change" "mime" "bitmap" 0 ]

/-- One session with result clicks at positions 1, 2, 2, 5. -/
def exClickStream : List MsEvent :=
  [ mkMs 1 100 "search_new" "" "" 0,
    mkMs 1 200 "result_click" "" "" 1,
    mkMs 1 300 "result_click" "" "" 2,
    mkMs 1 400 "result_click" "" "" 2,
    mkMs 1 500 "result_click" "" "" 5 ]

/-- One session with a start event and no result clicks. -/
def exNoClickStream : List MsEvent :=
  [ mkMs 1 100 "search_new" "" "" 0 ]

/-- Build a VE `editattemptstep` event (non-oversample, visualeditor). -/
def mkEs (sid t : Nat) (ns : Int) (act : String) : EsEvent :=
  { editing_session_id := sid, dt := t, page_ns := ns, action := act,
    is_oversample := false, editor_interface := "visualeditor" }

/-- Build a VE `visualeditorfeatureuse` event on the `media` feature. -/
def mkVefu (sid t : Nat) (act : String) : VefuEvent :=
  { editingsessionid := sid, dt := t, feature := "media", action := act }

/-- Three edit sessions: session 1 completes all six steps (steps 2 and 3
share a timestamp), session 2 stops after step 2, session 3 after step 1. -/
def exEsStream : List EsEvent :=
  [ mkEs 1 100 0 "init", mkEs 2 150 0 "init", mkEs 3 160 0 "init",
    mkEs 1 900 0 "saveSuccess" ]

/-- The feature-use events of `exEsStream`'s sessions. -/
def exVefuStream : List VefuEvent :=
  [ mkVefu 1 200 "window-open-from-tool",
    mkVefu 1 200 "search-change-query",
    mkVefu 1 300 "search-confirm-image",
    mkVefu 1 400 "dialog-insert",
    mkVefu 2 250 "window-open-from-tool" ]

/-- The single aggregate row the funnel query produces from `exEsStream` and
`exVefuStream` on the "add media" path. -/
def exFunnelRow : FunnelRow :=
  { log_date := 0, page_ns := 0, path_type := "add media",
    num_edit_sessions := 3, num_dialog_opens := 2, num_media_searches := 1,
    num_media_confirms := 1, num_dialog_close := 1, num_edit_saves := 1 }

/-! ## Helper lemmas -/

theorem length_filter_mono {α : Type} {l : List α} {p q : α → Bool}
    (h : ∀ x ∈ l, p x = true → q x = true) :
    (l.filter p).length ≤ (l.filter q).length := by
  induction l with
  | nil => simp
  | cons a as ih =>
    have ih' := ih (fun x hx hpx => h x (List.mem_cons_of_mem a hx) hpx)
    rw [List.filter_cons, List.filter_cons]
    by_cases hp : p a = true
    · have hq : q a = true := h a (List.mem_cons_self a as) hp
      simp only [hp, hq, if_true, List.length_cons]
      omega
    · by_cases hq : q a = true
      · simp only [hp, hq, if_true, if_false, List.length_cons, if_neg]
        simp only [Bool.not_eq_true] at hp
        simp [hp]
        omega
      · simp only [Bool.not_eq_true] at hp hq
        simp [hp, hq]
        exact ih'

/-- Membership in the `mediasearch_sessions` CTE, characterised: `(sid, t)`
is a session of interest iff `t` is the timestamp of a `search_new` event of
that session, is minimal among them, and falls on `today`. -/
theorem mem_mediasearch_sessions_iff {ms : List MsEvent} {today sid t : Nat} :
    (sid, t) ∈ mediasearch_sessions ms today ↔
      ((∃ e ∈ ms, e.web_pageview_id = sid ∧ e.action = "search_new" ∧ evDt e = t) ∧
       (∀ e ∈ ms, e.web_pageview_id = sid → e.action = "search_new" → t ≤ evDt e) ∧
       toDate t = today) := by
  constructor
  · intro hmem
    rw [mediasearch_sessions, List.mem_filterMap] at hmem
    obtain ⟨a, _, hfa⟩ := hmem
    cases hmin : minDtAux ((ms.filter (fun e =>
        e.web_pageview_id == a && e.action == "search_new")).map evDt) with
    | none => rw [hmin] at hfa; cases hfa
    | some t' =>
      rw [hmin, Option.some_bind] at hfa
      by_cases hd : toDate t' = today
      · rw [if_pos hd] at hfa
        injection hfa with hfa1
        have ha : a = sid := congrArg Prod.fst hfa1
        have ht : t' = t := congrArg Prod.snd hfa1
        subst ha; subst ht
        refine ⟨?_, ?_, hd⟩
        · have := minDtAux_mem hmin
          rw [List.mem_map] at this
          obtain ⟨e, he, hevdt⟩ := this
          rw [List.mem_filter] at he
          obtain ⟨hems, hbool⟩ := he
          simp only [Bool.and_eq_true, beq_iff_eq] at hbool
          exact ⟨e, hems, hbool.1, hbool.2, hevdt⟩
        · intro e hems hid hact
          refine minDtAux_le hmin (evDt e) ?_
          rw [List.mem_map]
          refine ⟨e, ?_, rfl⟩
          rw [List.mem_filter]
          refine ⟨hems, ?_⟩
          simp [hid, hact]
      · rw [if_neg hd] at hfa; cases hfa
  · intro hcond
    obtain ⟨⟨e, hems, hid, hact, hevdt⟩, hle, hdate⟩ := hcond
    rw [mediasearch_sessions, List.mem_filterMap]
    refine ⟨sid, ?_, ?_⟩
    · rw [msSessionIds, List.mem_dedup, List.mem_map]
      exact ⟨e, hems, hid⟩
    · have hemem : e ∈ ms.filter (fun e =>
          e.web_pageview_id == sid && e.action == "search_new") := by
        rw [List.mem_filter]
        exact ⟨hems, by simp [hid, hact]⟩
      have htmem : t ∈ (ms.filter (fun e =>
          e.web_pageview_id == sid && e.action == "search_new")).map evDt := by
        rw [List.mem_map]
        exact ⟨e, hemem, hevdt⟩
      have htle : ∀ x ∈ (ms.filter (fun e =>
          e.web_pageview_id == sid && e.action == "search_new")).map evDt, t ≤ x := by
        intro x hx
        rw [List.mem_map] at hx
        obtain ⟨e', he', hevdt'⟩ := hx
        rw [List.mem_filter] at he'
        obtain ⟨he'ms, hbool⟩ := he'
        simp only [Bool.and_eq_true, beq_iff_eq] at hbool
        rw [← hevdt']
        exact hle e' he'ms hbool.1 hbool.2
      rw [minDtAux_eq_of_mem_of_le htmem htle, Option.some_bind]
      rw [if_pos hdate]

/-- A session id occurs at most once in `mediasearch_sessions`. -/
theorem mediasearch_sessions_start_unique {ms : List MsEvent} {today sid t t' : Nat}
    (h1 : (sid, t) ∈ mediasearch_sessions ms today)
    (h2 : (sid, t') ∈ mediasearch_sessions ms today) : t = t' := by
  rw [mem_mediasearch_sessions_iff] at h1 h2
  obtain ⟨⟨e, he, heid, heact, hedt⟩, hle, _⟩ := h1
  obtain ⟨⟨f, hf, hfid, hfact, hfdt⟩, hle', _⟩ := h2
  have h3 : t ≤ evDt f := hle f hf hfid hfact
  have h4 : t' ≤ evDt e := hle' e he heid heact
  omega

/-- Membership in `mediasearch_quickview` yields the session's start time,
the strict lower bound, the cutoff, and a witnessing `result_click` event. -/
theorem mem_mediasearch_quickview {ms : List MsEvent} {today limit sid fc : Nat}
    (h : (sid, fc) ∈ mediasearch_quickview ms today limit) :
    ∃ t0, (sid, t0) ∈ mediasearch_sessions ms today ∧ t0 < fc ∧ fc < limit ∧
      ∃ e ∈ ms, e.web_pageview_id = sid ∧ e.action = "result_click" ∧ evDt e = fc := by
  rw [mediasearch_quickview, List.mem_filterMap] at h
  obtain ⟨st, hst, hfa⟩ := h
  rw [Option.map_eq_some'] at hfa
  obtain ⟨fc', hmin, heq⟩ := hfa
  have h1 : st.1 = sid := congrArg Prod.fst heq
  have h2 : fc' = fc := congrArg Prod.snd heq
  subst h2
  have hmem := minDtAux_mem hmin
  rw [List.mem_map] at hmem
  obtain ⟨e, he, hevdt⟩ := hmem
  rw [List.mem_filter] at he
  obtain ⟨hems, hbool⟩ := he
  simp only [Bool.and_eq_true, beq_iff_eq, decide_eq_true_eq] at hbool
  refine ⟨st.2, ?_, ?_, ?_, e, hems, ?_, hbool.1.1.2, hevdt⟩
  · rw [← h1]; exact hst
  · rw [← hevdt]; exact hbool.1.2
  · rw [← hevdt]; exact hbool.2
  · rw [← h1]; exact hbool.1.1.1

/-- A completed `nextStep` yields the previous step's timestamp, the
non-strict ordering, the cutoff bound, and a witnessing event. -/
theorem nextStep_some {vefu : List VefuEvent} {actPred : String → Bool} {limit : Nat}
    {prev : Nat → Option Nat} {sid t : Nat}
    (h : nextStep vefu actPred limit prev sid = some t) :
    ∃ tprev, prev sid = some tprev ∧ tprev ≤ t ∧ t < limit ∧
      ∃ v ∈ vefu, v.editingsessionid = sid ∧ v.feature = "media" ∧
        actPred v.action = true ∧ v.dt = t := by
  rw [nextStep, Option.bind_eq_some] at h
  obtain ⟨tprev, hprev, hmin⟩ := h
  have hmem := minDtAux_mem hmin
  rw [List.mem_map] at hmem
  obtain ⟨v, hv, hdt⟩ := hmem
  rw [List.mem_filter] at hv
  obtain ⟨hvefu, hbool⟩ := hv
  simp only [Bool.and_eq_true, beq_iff_eq, decide_eq_true_eq] at hbool
  refine ⟨tprev, hprev, ?_, ?_, v, hvefu, hbool.1.1.1.1, hbool.1.1.1.2, hbool.1.1.2, hdt⟩
  · rw [← hdt]; exact hbool.1.2
  · rw [← hdt]; exact hbool.2

/-- An event carrying exactly the previous step's timestamp (before the
cutoff) completes the step, and the step's timestamp ties with it. -/
theorem nextStep_tie {vefu : List VefuEvent} {actPred : String → Bool} {limit : Nat}
    {prev : Nat → Option Nat} {sid tprev : Nat}
    (hprev : prev sid = some tprev) (hlim : tprev < limit)
    {v : VefuEvent} (hv : v ∈ vefu) (hid : v.editingsessionid = sid)
    (hf : v.feature = "media") (ha : actPred v.action = true) (hdt : v.dt = tprev) :
    nextStep vefu actPred limit prev sid = some tprev := by
  rw [nextStep, hprev, Option.some_bind]
  refine minDtAux_eq_of_mem_of_le ?_ ?_
  · rw [List.mem_map]
    refine ⟨v, ?_, hdt⟩
    rw [List.mem_filter]
    refine ⟨hv, ?_⟩
    simp [hid, hf, ha, hdt, hlim]
  · intro x hx
    rw [List.mem_map] at hx
    obtain ⟨w, hw, hwdt⟩ := hx
    rw [List.mem_filter] at hw
    obtain ⟨_, hbool⟩ := hw
    simp only [Bool.and_eq_true, beq_iff_eq, decide_eq_true_eq] at hbool
    rw [← hwdt]
    exact hbool.1.2

/-- Each chained step implies the previous one with a non-strictly larger
timestamp below the cutoff (`step_2` relative to `step_1`). -/
theorem step2_some {es : List EsEvent} {vefu : List VefuEvent}
    {sd ed limit : Nat} {oa : String} {sid t : Nat}
    (h : step2 es vefu sd ed limit oa sid = some t) :
    ∃ p, step1 es sd ed sid = some p ∧ p.2 ≤ t ∧ t < limit := by
  obtain ⟨tprev, hprev, hle, hlim, _⟩ := nextStep_some h
  rw [Option.map_eq_some'] at hprev
  obtain ⟨p, hp, hp2⟩ := hprev
  exact ⟨p, hp, by omega, hlim⟩

theorem step3_some {es : List EsEvent} {vefu : List VefuEvent}
    {sd ed limit : Nat} {oa : String} {sid t : Nat}
    (h : step3 es vefu sd ed limit oa sid = some t) :
    ∃ t2, step2 es vefu sd ed limit oa sid = some t2 ∧ t2 ≤ t ∧ t < limit := by
  obtain ⟨tprev, hprev, hle, hlim, _⟩ := nextStep_some h
  exact ⟨tprev, hprev, hle, hlim⟩

theorem step4_some {es : List EsEvent} {vefu : List VefuEvent}
    {sd ed limit : Nat} {oa : String} {sid t : Nat}
    (h : step4 es vefu sd ed limit oa sid = some t) :
    ∃ t3, step3 es vefu sd ed limit oa sid = some t3 ∧ t3 ≤ t ∧ t < limit := by
  obtain ⟨tprev, hprev, hle, hlim, _⟩ := nextStep_some h
  exact ⟨tprev, hprev, hle, hlim⟩

theorem step5_some {es : List EsEvent} {vefu : List VefuEvent}
    {sd ed limit : Nat} {oa : String} {cp : String → Bool} {sid t : Nat}
    (h : step5 es vefu sd ed limit oa cp sid = some t) :
    ∃ t4, step4 es vefu sd ed limit oa sid = some t4 ∧ t4 ≤ t ∧ t < limit := by
  obtain ⟨tprev, hprev, hle, hlim, _⟩ := nextStep_some h
  exact ⟨tprev, hprev, hle, hlim⟩

theorem step6_true {es : List EsEvent} {vefu : List VefuEvent}
    {sd ed limit : Nat} {oa : String} {cp : String → Bool} {sid : Nat}
    (h : step6 es vefu sd ed limit oa cp sid = true) :
    ∃ t5, step5 es vefu sd ed limit oa cp sid = some t5 ∧
      ∃ e ∈ es, e.editing_session_id = sid ∧ e.action = "saveSuccess" ∧
        t5 ≤ e.dt ∧ e.dt < limit := by
  rw [step6] at h
  cases h5 : step5 es vefu sd ed limit oa cp sid with
  | none => rw [h5] at h; cases h
  | some t5 =>
    rw [h5] at h
    rw [List.any_eq_true] at h
    obtain ⟨e, he, hbool⟩ := h
    simp only [Bool.and_eq_true, beq_iff_eq, decide_eq_true_eq] at hbool
    exact ⟨t5, rfl, e, he, hbool.1.1.1, hbool.1.1.2, hbool.1.2, hbool.2⟩

theorem SimpleDate.day_le_of_le {a b : SimpleDate} (h : a.le b)
    (hy : a.year = b.year) (hm : a.month = b.month) : a.day ≤ b.day := by
  rcases h with h | ⟨h1, h | ⟨h2, h3⟩⟩ <;> omega

theorem le_of_monthIndex_lt {a b : SimpleDate} (hva : a.validMonth)
    (hvb : b.validMonth) (h : monthIndex a < monthIndex b) : a.le b := by
  rcases hva with ⟨ha1, ha2⟩
  rcases hvb with ⟨hb1, hb2⟩
  simp only [monthIndex] at h
  simp only [SimpleDate.le]
  omega

/-! ## The claims -/

/-- C4: for calendar dates `start_day <= end_day` within the same or
adjacent calendar month, `make_partition_statement` returns the
single-month `BETWEEN` predicate when they share year and month and the
two-clause disjunction otherwise; `2021-03-05..2021-03-07` yields the
single-month form, `2021-02-28..2021-03-01` the disjunction; and every
partition key within `[start_day, end_day]` satisfies the returned
predicate. -/
theorem make_partition_statement_correct :
    (∀ s e : SimpleDate, s.year = e.year → s.month = e.month →
      make_partition_statement s e =
        PartitionStatement.singleMonth s.year s.month s.day e.day) ∧
    (∀ s e : SimpleDate, ¬(s.year = e.year ∧ s.month = e.month) →
      make_partition_statement s e =
        PartitionStatement.twoMonths s.year s.month s.day e.year e.month e.day) ∧
    make_partition_statement ⟨2021, 3, 5⟩ ⟨2021, 3, 7⟩ =
      PartitionStatement.singleMonth 2021 3 5 7 ∧
    make_partition_statement ⟨2021, 2, 28⟩ ⟨2021, 3, 1⟩ =
      PartitionStatement.twoMonths 2021 2 28 2021 3 1 ∧
    (∀ s e p : SimpleDate, s.validMonth → e.validMonth → p.validMonth →
      monthIndex e ≤ monthIndex s + 1 → s.le p → p.le e →
      (make_partition_statement s e).holds p) := by
  refine ⟨?_, ?_, by decide, by decide, ?_⟩
  · intro s e hy hm
    rw [make_partition_statement, if_pos ⟨hy, hm⟩]
  · intro s e hne
    rw [make_partition_statement, if_neg hne]
  · intro s e p hs he hp hadj h1 h2
    have hsp := monthIndex_mono hs hp h1
    have hpe := monthIndex_mono hp he h2
    rw [make_partition_statement]
    by_cases hsame : s.year = e.year ∧ s.month = e.month
    · rw [if_pos hsame]
      obtain ⟨hy, hm⟩ := hsame
      have hse : monthIndex s = monthIndex e := by
        simp only [monthIndex, hy, hm]
      have hps : monthIndex p = monthIndex s := by omega
      obtain ⟨hpy, hpm⟩ := monthIndex_inj hp hs hps
      simp only [PartitionStatement.holds]
      refine ⟨hpy, hpm, ?_, ?_⟩
      · exact SimpleDate.day_le_of_le h1 hpy.symm hpm.symm
      · exact SimpleDate.day_le_of_le h2 (hpy.trans hy) (hpm.trans hm)
    · rw [if_neg hsame]
      have hne : monthIndex s ≠ monthIndex e := by
        intro heq
        exact hsame ⟨(monthIndex_inj hs he heq).1, (monthIndex_inj hs he heq).2⟩
      simp only [PartitionStatement.holds]
      rcases Nat.eq_or_lt_of_le hsp with hps | hps
      · obtain ⟨hpy, hpm⟩ := monthIndex_inj hp hs hps.symm
        exact Or.inl ⟨hpy, hpm, SimpleDate.day_le_of_le h1 hpy.symm hpm.symm⟩
      · have hpe' : monthIndex p = monthIndex e := by omega
        obtain ⟨hpy, hpm⟩ := monthIndex_inj hp he hpe'
        exact Or.inr ⟨hpy, hpm, SimpleDate.day_le_of_le h2 hpy hpm⟩

/-- Witness for C4: the coverage clause applied at the month-boundary
example, plus the single-month branch at a concrete pair. -/
theorem make_partition_statement_correct_witness :
    (make_partition_statement ⟨2021, 2, 28⟩ ⟨2021, 3, 1⟩).holds ⟨2021, 3, 1⟩ ∧
    make_partition_statement ⟨2021, 3, 5⟩ ⟨2021, 3, 5⟩ =
      PartitionStatement.singleMonth 2021 3 5 5 :=
  ⟨make_partition_statement_correct.2.2.2.2 ⟨2021, 2, 28⟩ ⟨2021, 3, 1⟩ ⟨2021, 3, 1⟩
      (by decide) (by decide) (by decide) (by decide) (by decide) (by decide),
    make_partition_statement_correct.1 ⟨2021, 3, 5⟩ ⟨2021, 3, 5⟩ rfl rfl⟩

/-- C10: for dates in non-adjacent months (violating the documented
precondition), `make_partition_statement` still returns normally with the
two-clause disjunction, and every partition key whose month lies strictly
between the start and end months is in range yet fails the predicate, so
its days are silently excluded. -/
theorem make_partition_statement_gap :
    ∀ s e p : SimpleDate, s.validMonth → e.validMonth → p.validMonth →
      monthIndex s < monthIndex p → monthIndex p < monthIndex e →
      make_partition_statement s e =
        PartitionStatement.twoMonths s.year s.month s.day e.year e.month e.day ∧
      s.le p ∧ p.le e ∧ ¬ (make_partition_statement s e).holds p := by
  intro s e p hs he hp h1 h2
  have hne : ¬(s.year = e.year ∧ s.month = e.month) := by
    intro ⟨hy, hm⟩
    have : monthIndex s = monthIndex e := by simp only [monthIndex, hy, hm]
    omega
  have heq : make_partition_statement s e =
      PartitionStatement.twoMonths s.year s.month s.day e.year e.month e.day := by
    rw [make_partition_statement, if_neg hne]
  refine ⟨heq, le_of_monthIndex_lt hs hp h1, le_of_monthIndex_lt hp he h2, ?_⟩
  rw [heq]
  simp only [PartitionStatement.holds]
  rintro (⟨hpy, hpm, _⟩ | ⟨hpy, hpm, _⟩)
  · have : monthIndex p = monthIndex s := by simp only [monthIndex, hpy, hpm]
    omega
  · have : monthIndex p = monthIndex e := by simp only [monthIndex, hpy, hpm]
    omega

/-- Witness for C10: `start=2021-01-31, end=2021-03-01` spans three
months; the February partition `2021-02-10` lies between them but fails
the returned predicate. -/
theorem make_partition_statement_gap_witness :
    make_partition_statement ⟨2021, 1, 31⟩ ⟨2021, 3, 1⟩ =
      PartitionStatement.twoMonths 2021 1 31 2021 3 1 ∧
    SimpleDate.le ⟨2021, 1, 31⟩ ⟨2021, 2, 10⟩ ∧
    SimpleDate.le ⟨2021, 2, 10⟩ ⟨2021, 3, 1⟩ ∧
    ¬ (make_partition_statement ⟨2021, 1, 31⟩ ⟨2021, 3, 1⟩).holds ⟨2021, 2, 10⟩ :=
  make_partition_statement_gap ⟨2021, 1, 31⟩ ⟨2021, 3, 1⟩ ⟨2021, 2, 10⟩
    (by decide) (by decide) (by decide) (by decide) (by decide)

/-- C5: the session extractor groups events by session id, sets a
session's start time to the minimum timestamp over its `search_new`
events, and returns exactly the sessions whose start time falls on
`data_day`; a session with no `search_new` event appears in no output. -/
theorem session_extractor_correct :
    (∀ (ms : List MsEvent) (today sid t : Nat),
      (sid, t) ∈ mediasearch_sessions ms today ↔
        ((∃ e ∈ ms, e.web_pageview_id = sid ∧ e.action = "search_new" ∧ evDt e = t) ∧
         (∀ e ∈ ms, e.web_pageview_id = sid → e.action = "search_new" → t ≤ evDt e) ∧
         toDate t = today)) ∧
    (∀ (ms : List MsEvent) (today sid : Nat),
      (∀ e ∈ ms, e.web_pageview_id = sid → e.action ≠ "search_new") →
      ∀ t, (sid, t) ∉ mediasearch_sessions ms today) := by
  refine ⟨fun ms today sid t => mem_mediasearch_sessions_iff, ?_⟩
  intro ms today sid hnostart t hmem
  rw [mem_mediasearch_sessions_iff] at hmem
  obtain ⟨⟨e, hems, hid, hact, _⟩, _, _⟩ := hmem
  exact hnostart e hems hid hact

/-- Witness for C5: in `exStartStream`, session 1 (with a `search_new`
event at 100 on day 0) is extracted with start time 100, and session 2
(no `search_new` event) is absent. -/
theorem session_extractor_correct_witness :
    (1, 100) ∈ mediasearch_sessions exStartStream 0 ∧
    (2, 50) ∉ mediasearch_sessions exStartStream 0 :=
  ⟨(session_extractor_correct.1 exStartStream 0 1 100).mpr (by decide),
    session_extractor_correct.2 exStartStream 0 2 (by decide) 50⟩

/-- C1 (amended): in `edit_funnel_query` every step's temporal comparison
is non-strict — an event at exactly the previous step's timestamp (before
the cutoff) completes the step, including the `saveSuccess` step — but in
`mediasearch_success_query` the result-click comparison is strict `>`:
the first click time of any quickview session strictly exceeds the
session's start time, so a click at exactly the start instant does not
count. -/
theorem funnel_tie_break :
    (∀ (vefu : List VefuEvent) (actPred : String → Bool) (limit : Nat)
        (prev : Nat → Option Nat) (sid tprev : Nat),
      prev sid = some tprev → tprev < limit →
      (∃ v ∈ vefu, v.editingsessionid = sid ∧ v.feature = "media" ∧
        actPred v.action = true ∧ v.dt = tprev) →
      nextStep vefu actPred limit prev sid = some tprev) ∧
    (∀ (es : List EsEvent) (vefu : List VefuEvent) (sd ed limit : Nat)
        (oa : String) (cp : String → Bool) (sid t5 : Nat),
      step5 es vefu sd ed limit oa cp sid = some t5 → t5 < limit →
      (∃ e ∈ es, e.editing_session_id = sid ∧ e.action = "saveSuccess" ∧ e.dt = t5) →
      step6 es vefu sd ed limit oa cp sid = true) ∧
    (∀ (ms : List MsEvent) (today limit sid fc t0 : Nat),
      (sid, fc) ∈ mediasearch_quickview ms today limit →
      (sid, t0) ∈ mediasearch_sessions ms today → t0 < fc) := by
  refine ⟨?_, ?_, ?_⟩
  · intro vefu actPred limit prev sid tprev hprev hlim hex
    obtain ⟨v, hv, hid, hf, ha, hdt⟩ := hex
    exact nextStep_tie hprev hlim hv hid hf ha hdt
  · intro es vefu sd ed limit oa cp sid t5 h5 hlim hex
    obtain ⟨e, he, hid, hact, hdt⟩ := hex
    rw [step6, h5]
    rw [List.any_eq_true]
    refine ⟨e, he, ?_⟩
    simp [hid, hact, hdt, hlim]
  · intro ms today limit sid fc t0 hqv hsess
    obtain ⟨t0', hsess', hlt, _, _⟩ := mem_mediasearch_quickview hqv
    rw [mediasearch_sessions_start_unique hsess hsess']
    exact hlt

/-- Witness for C1 (amended): in `exVefuStream`, session 1's
`search-change-query` event carries exactly step 2's timestamp 200 and
still completes step 3 at 200; and the quickview session of
`exClickStream` first clicks at 200, strictly after its start 100. -/
theorem funnel_tie_break_witness :
    nextStep exVefuStream (fun a => a == "search-change-query") 90000
      (fun _ => some 200) 1 = some 200 ∧ (100 : Nat) < 200 :=
  ⟨funnel_tie_break.1 exVefuStream (fun a => a == "search-change-query") 90000
      (fun _ => some 200) 1 200 rfl (by decide) (by decide),
    funnel_tie_break.2.2 exClickStream 0 90000 1 200 100 (by decide) (by decide)⟩

/-- C1 counterexample: in `exTieStream` the only `result_click` carries
exactly the session-start timestamp 100; because `mediasearch_quickview`
compares with strict `>`, the session is not counted as having clicked a
result — refuting that the comparison is non-strict in every step of every
funnel/aggregation query. -/
theorem funnel_tie_break_counterexample :
    (1, 100) ∈ mediasearch_sessions exTieStream 0 ∧
    (∃ e ∈ exTieStream, e.action = "result_click" ∧ evDt e = 100 ∧ evDt e < 90000) ∧
    mediasearch_quickview exTieStream 0 90000 = [] ∧
    (mediasearch_success_rows exTieStream 0 90000).map
      (fun r => r.num_result_clicked) = [0] := by decide

/-- C2 (amended): every event attributed to a chained funnel step lies
inside the session window — quickview first clicks lie strictly between
the session start and the cutoff, and every completed edit-funnel step's
timestamp lies in `[t1, cutoff)` where `t1` is the session's step-1
timestamp, including the final `saveSuccess` event — but filter-change
attribution has no lower bound (see the counterexample): only the cutoff
bound holds for it. -/
theorem funnel_window_invariant :
    (∀ (ms : List MsEvent) (today limit sid fc : Nat),
      (sid, fc) ∈ mediasearch_quickview ms today limit →
      ∃ t0, (sid, t0) ∈ mediasearch_sessions ms today ∧ t0 < fc ∧ fc < limit) ∧
    (∀ (es : List EsEvent) (vefu : List VefuEvent) (sd ed limit : Nat)
        (oa : String) (sid t : Nat),
      step2 es vefu sd ed limit oa sid = some t →
      ∃ p, step1 es sd ed sid = some p ∧ p.2 ≤ t ∧ t < limit) ∧
    (∀ (es : List EsEvent) (vefu : List VefuEvent) (sd ed limit : Nat)
        (oa : String) (sid t : Nat),
      step3 es vefu sd ed limit oa sid = some t →
      ∃ p, step1 es sd ed sid = some p ∧ p.2 ≤ t ∧ t < limit) ∧
    (∀ (es : List EsEvent) (vefu : List VefuEvent) (sd ed limit : Nat)
        (oa : String) (sid t : Nat),
      step4 es vefu sd ed limit oa sid = some t →
      ∃ p, step1 es sd ed sid = some p ∧ p.2 ≤ t ∧ t < limit) ∧
    (∀ (es : List EsEvent) (vefu : List VefuEvent) (sd ed limit : Nat)
        (oa : String) (cp : String → Bool) (sid t : Nat),
      step5 es vefu sd ed limit oa cp sid = some t →
      ∃ p, step1 es sd ed sid = some p ∧ p.2 ≤ t ∧ t < limit) ∧
    (∀ (es : List EsEvent) (vefu : List VefuEvent) (sd ed limit : Nat)
        (oa : String) (cp : String → Bool) (sid : Nat),
      step6 es vefu sd ed limit oa cp sid = true →
      ∃ p, step1 es sd ed sid = some p ∧
        ∃ e ∈ es, e.editing_session_id = sid ∧ e.action = "saveSuccess" ∧
          p.2 ≤ e.dt ∧ e.dt < limit) := by
  refine ⟨?_, ?_, ?_, ?_, ?_, ?_⟩
  · intro ms today limit sid fc h
    obtain ⟨t0, hsess, hlt, hlim, _⟩ := mem_mediasearch_quickview h
    exact ⟨t0, hsess, hlt, hlim⟩
  · intro es vefu sd ed limit oa sid t h
    exact step2_some h
  · intro es vefu sd ed limit oa sid t h
    obtain ⟨t2, h2, hle2, hlim⟩ := step3_some h
    obtain ⟨p, hp, hle1, _⟩ := step2_some h2
    exact ⟨p, hp, by omega, hlim⟩
  · intro es vefu sd ed limit oa sid t h
    obtain ⟨t3, h3, hle3, hlim⟩ := step4_some h
    obtain ⟨t2, h2, hle2, _⟩ := step3_some h3
    obtain ⟨p, hp, hle1, _⟩ := step2_some h2
    exact ⟨p, hp, by omega, hlim⟩
  · intro es vefu sd ed limit oa cp sid t h
    obtain ⟨t4, h4, hle4, hlim⟩ := step5_some h
    obtain ⟨t3, h3, hle3, _⟩ := step4_some h4
    obtain ⟨t2, h2, hle2, _⟩ := step3_some h3
    obtain ⟨p, hp, hle1, _⟩ := step2_some h2
    exact ⟨p, hp, by omega, hlim⟩
  · intro es vefu sd ed limit oa cp sid h
    obtain ⟨t5, h5, e, he, hid, hact, hle5, hlim⟩ := step6_true h
    obtain ⟨t4, h4, hle4, _⟩ := step5_some h5
    obtain ⟨t3, h3, hle3, _⟩ := step4_some h4
    obtain ⟨t2, h2, hle2, _⟩ := step3_some h3
    obtain ⟨p, hp, hle1, _⟩ := step2_some h2
    exact ⟨p, hp, e, he, hid, hact, by omega, hlim⟩

/-- Witness for C2 (amended): the quickview bound at `exClickStream`
(first click 200, start 100, cutoff 90000) and the step-3 bound at the
funnel example (step 3 at 200 within `[100, 90000)`). -/
theorem funnel_window_invariant_witness :
    (∃ t0, (1, t0) ∈ mediasearch_sessions exClickStream 0 ∧
      t0 < 200 ∧ 200 < 90000) ∧
    (∃ p, step1 exEsStream 0 86400 1 = some p ∧ p.2 ≤ 200 ∧ 200 < 90000) :=
  ⟨funnel_window_invariant.1 exClickStream 0 90000 1 200 (by decide),
    funnel_window_invariant.2.2.1 exEsStream exVefuStream 0 86400 90000
      "window-open-from-tool" 1 200 (by decide)⟩

/-- C2 counterexample: in `exEarlyFilterStream` the session starts at 100
but its only `filter_change` event happened at 50; the code still counts
it (`filters_per_session` reports one filter change), while the
spec-modelled window (`filters_per_session_windowed`, requiring
`timestamp >= start_time`) attributes nothing — refuting that every
attributed event satisfies `timestamp >= session.start_time`. -/
theorem funnel_window_invariant_counterexample :
    mediasearch_sessions exEarlyFilterStream 0 = [(1, 100)] ∧
    (∃ e ∈ exEarlyFilterStream, e.action = "filter_change" ∧ evDt e = 50 ∧ evDt e < 100) ∧
    filters_per_session exEarlyFilterStream 0 90000 = [(0, 1, 1)] ∧
    filters_per_session_windowed exEarlyFilterStream 0 90000 = [] := by decide

/-- C3: in the chained funnel a session completes step `i` only if it
completed step `i-1`, with `t_i >= t_{i-1}` (non-strict); consequently
every output row's per-step counts are monotonically non-increasing
(`num_edit_sessions >= num_dialog_opens >= num_media_searches >=
num_media_confirms >= num_dialog_close >= num_edit_saves`). -/
theorem edit_funnel_required_chain :
    (∀ (es : List EsEvent) (vefu : List VefuEvent) (sd ed limit : Nat)
        (oa : String) (sid t : Nat),
      step2 es vefu sd ed limit oa sid = some t →
      ∃ p, step1 es sd ed sid = some p ∧ p.2 ≤ t) ∧
    (∀ (es : List EsEvent) (vefu : List VefuEvent) (sd ed limit : Nat)
        (oa : String) (sid t : Nat),
      step3 es vefu sd ed limit oa sid = some t →
      ∃ t2, step2 es vefu sd ed limit oa sid = some t2 ∧ t2 ≤ t) ∧
    (∀ (es : List EsEvent) (vefu : List VefuEvent) (sd ed limit : Nat)
        (oa : String) (sid t : Nat),
      step4 es vefu sd ed limit oa sid = some t →
      ∃ t3, step3 es vefu sd ed limit oa sid = some t3 ∧ t3 ≤ t) ∧
    (∀ (es : List EsEvent) (vefu : List VefuEvent) (sd ed limit : Nat)
        (oa : String) (cp : String → Bool) (sid t : Nat),
      step5 es vefu sd ed limit oa cp sid = some t →
      ∃ t4, step4 es vefu sd ed limit oa sid = some t4 ∧ t4 ≤ t) ∧
    (∀ (es : List EsEvent) (vefu : List VefuEvent) (sd ed limit : Nat)
        (oa : String) (cp : String → Bool) (sid : Nat),
      step6 es vefu sd ed limit oa cp sid = true →
      ∃ t5, step5 es vefu sd ed limit oa cp sid = some t5) ∧
    (∀ (es : List EsEvent) (vefu : List VefuEvent) (sd ed limit : Nat)
        (oa : String) (cp : String → Bool) (pt : String) (row : FunnelRow),
      row ∈ editFunnelRows es vefu sd ed limit oa cp pt →
      row.num_dialog_opens ≤ row.num_edit_sessions ∧
      row.num_media_searches ≤ row.num_dialog_opens ∧
      row.num_media_confirms ≤ row.num_media_searches ∧
      row.num_dialog_close ≤ row.num_media_confirms ∧
      row.num_edit_saves ≤ row.num_dialog_close) := by
  refine ⟨?_, ?_, ?_, ?_, ?_, ?_⟩
  · intro es vefu sd ed limit oa sid t h
    obtain ⟨p, hp, hle, _⟩ := step2_some h
    exact ⟨p, hp, hle⟩
  · intro es vefu sd ed limit oa sid t h
    obtain ⟨t2, h2, hle, _⟩ := step3_some h
    exact ⟨t2, h2, hle⟩
  · intro es vefu sd ed limit oa sid t h
    obtain ⟨t3, h3, hle, _⟩ := step4_some h
    exact ⟨t3, h3, hle⟩
  · intro es vefu sd ed limit oa cp sid t h
    obtain ⟨t4, h4, hle, _⟩ := step5_some h
    exact ⟨t4, h4, hle⟩
  · intro es vefu sd ed limit oa cp sid h
    obtain ⟨t5, h5, _⟩ := step6_true h
    exact ⟨t5, h5⟩
  · intro es vefu sd ed limit oa cp pt row hrow
    rw [editFunnelRows, List.mem_map] at hrow
    obtain ⟨key, _, heq⟩ := hrow
    rw [← heq]
    refine ⟨?_, ?_, ?_, ?_, ?_⟩
    · exact List.length_filter_le _ _
    · refine length_filter_mono ?_
      intro x _ hx
      rw [Option.isSome_iff_exists] at hx ⊢
      obtain ⟨t, ht⟩ := hx
      obtain ⟨t2, h2, _⟩ := step3_some ht
      exact ⟨t2, h2⟩
    · refine length_filter_mono ?_
      intro x _ hx
      rw [Option.isSome_iff_exists] at hx ⊢
      obtain ⟨t, ht⟩ := hx
      obtain ⟨t3, h3, _⟩ := step4_some ht
      exact ⟨t3, h3⟩
    · refine length_filter_mono ?_
      intro x _ hx
      rw [Option.isSome_iff_exists] at hx ⊢
      obtain ⟨t, ht⟩ := hx
      obtain ⟨t4, h4, _⟩ := step5_some ht
      exact ⟨t4, h4⟩
    · refine length_filter_mono ?_
      intro x _ hx
      rw [Option.isSome_iff_exists]
      obtain ⟨t5, h5, _⟩ := step6_true hx
      exact ⟨t5, h5⟩

/-- Witness for C3: the row aggregated from the example funnel streams
has counts `3 >= 2 >= 1 >= 1 >= 1 >= 1`, and session 1's step 3 at 200
implies its step 2 completed no later. -/
theorem edit_funnel_required_chain_witness :
    (exFunnelRow.num_dialog_opens ≤ exFunnelRow.num_edit_sessions ∧
      exFunnelRow.num_media_searches ≤ exFunnelRow.num_dialog_opens ∧
      exFunnelRow.num_media_confirms ≤ exFunnelRow.num_media_searches ∧
      exFunnelRow.num_dialog_close ≤ exFunnelRow.num_media_confirms ∧
      exFunnelRow.num_edit_saves ≤ exFunnelRow.num_dialog_close) ∧
    (∃ t2, step2 exEsStream exVefuStream 0 86400 90000
        "window-open-from-tool" 1 = some t2 ∧ t2 ≤ 200) :=
  ⟨edit_funnel_required_chain.2.2.2.2.2 exEsStream exVefuStream 0 86400 90000
      "window-open-from-tool" (fun a => a == "dialog-insert") "add media"
      exFunnelRow (by decide),
    edit_funnel_required_chain.2.1 exEsStream exVefuStream 0 86400 90000
      "window-open-from-tool" 1 200 (by decide)⟩

/-- C6: in the filter-change aggregation an empty-string filter value is
rewritten to the sentinel label `'reset'` — every group key with empty
value surfaces as a `'reset'` row carrying its count — and no output row
carries an empty-string `filter_value`. -/
theorem filter_value_reset_normalization :
    (∀ (ms : List MsEvent) (today limit : Nat) (row : FilterChangeRow),
      row ∈ filter_change_rows ms today limit → row.filter_value ≠ "") ∧
    (∀ (ms : List MsEvent) (today limit : Nat) (k : Nat × String × String),
      k ∈ filterJoinRows ms today limit →
      (k, (filterJoinRows ms today limit).count k) ∈
        mediasearch_filter_aggregates ms today limit) ∧
    (∀ (ms : List MsEvent) (today limit d : Nat) (ty : String) (n : Nat),
      ((d, ty, ""), n) ∈ mediasearch_filter_aggregates ms today limit →
      ({ log_date := d, filter_type := ty, filter_value := "reset",
         num_changes := n } : FilterChangeRow) ∈ filter_change_rows ms today limit) := by
  refine ⟨?_, ?_, ?_⟩
  · intro ms today limit row hrow
    rw [filter_change_rows, List.mem_map] at hrow
    obtain ⟨kn, _, heq⟩ := hrow
    rw [← heq]
    show (if kn.1.2.2 == "" then "reset" else kn.1.2.2) ≠ ""
    by_cases h : kn.1.2.2 == ""
    · rw [if_pos h]; decide
    · rw [if_neg h]; simpa using h
  · intro ms today limit k hk
    rw [mediasearch_filter_aggregates, List.mem_map]
    exact ⟨k, List.mem_dedup.mpr hk, rfl⟩
  · intro ms today limit d ty n h
    rw [filter_change_rows, List.mem_map]
    refine ⟨((d, ty, ""), n), h, ?_⟩
    rfl

/-- Witness for C6: `exResetStream`'s empty-valued filter change surfaces
as the `'reset'` row, and that row's value is not blank. -/
theorem filter_value_reset_normalization_witness :
    ({ log_date := 0, filter_type := "mime", filter_value := "reset",
       num_changes := 1 } : FilterChangeRow) ∈ filter_change_rows exResetStream 0 90000 ∧
    ({ log_date := 0, filter_type := "mime", filter_value := "reset",
       num_changes := 1 } : FilterChangeRow).filter_value ≠ "" :=
  ⟨filter_value_reset_normalization.2.2 exResetStream 0 90000 0 "mime" 1 (by decide),
    filter_value_reset_normalization.1 exResetStream 0 90000 _ 
      (filter_value_reset_normalization.2.2 exResetStream 0 90000 0 "mime" 1 (by decide))⟩

/-- C7: the median of click positions `[1, 2, 2, 5]` in one date group is
`2.0`, and a date group with no qualifying result clicks still emits its
row, with the sentinel `0.0` as `median_position_clicked`. -/
theorem median_click_position_values :
    percentileHalf [1, 2, 2, 5] = some 2 ∧
    clickPositions exClickStream 0 90000 0 = [1, 2, 2, 5] ∧
    median_click_position exClickStream 0 90000 0 = some 2 ∧
    (mediasearch_success_rows exClickStream 0 90000).map
      (fun r => (r.log_date, r.num_result_clicked, r.median_position_clicked)) =
      [(0, 1, (2 : ℚ))] ∧
    median_click_position exNoClickStream 0 90000 0 = none ∧
    (mediasearch_success_rows exNoClickStream 0 90000).map
      (fun r => (r.log_date, r.num_result_clicked, r.median_position_clicked)) =
      [(0, 0, (0 : ℚ))] := by
  have hcp : clickPositions exClickStream 0 90000 0 = [1, 2, 2, 5] := by decide
  have hm : median_click_position exClickStream 0 90000 0 = some 2 := by
    rw [median_click_position, hcp]
    norm_num [percentileHalf, sortPositions, insertSorted]
  have hm' : median_click_position exNoClickStream 0 90000 0 = none := by
    have h : clickPositions exNoClickStream 0 90000 0 = [] := by decide
    rw [median_click_position, h]
    rfl
  refine ⟨?_, hcp, hm, ?_, hm', ?_⟩
  · norm_num [percentileHalf, sortPositions, insertSorted]
  · have hd : statDates exClickStream 0 = [0] := by decide
    rw [mediasearch_success_rows, hd]
    simp only [List.map_cons, List.map_nil]
    congr 1
    refine Prod.ext ?_ (Prod.ext ?_ ?_)
    · decide
    · decide
    · show (median_click_position exClickStream 0 90000 0).getD 0 = 2
      rw [hm]
      rfl
  · have hd : statDates exNoClickStream 0 = [0] := by decide
    rw [mediasearch_success_rows, hd]
    simp only [List.map_cons, List.map_nil]
    congr 1

/-- C8: running the aggregation job twice appends two identical sets of
rows — the write is a pure append that neither checks for nor removes
rows already present, so each row of one run's output occurs twice more
than in the original table. -/
theorem aggregator_append_only_duplicates :
    ∀ (table : List (Nat × Nat × Nat)) (ms : List MsEvent) (today limit : Nat),
      runFiltersPerSessionJob (runFiltersPerSessionJob table ms today limit)
          ms today limit =
        table ++ filters_per_session_agg ms today limit ++
          filters_per_session_agg ms today limit ∧
      ∀ r : Nat × Nat × Nat,
        (runFiltersPerSessionJob (runFiltersPerSessionJob table ms today limit)
            ms today limit).count r =
          table.count r + 2 * (filters_per_session_agg ms today limit).count r := by
  intro table ms today limit
  constructor
  · rfl
  · intro r
    simp only [runFiltersPerSessionJob, insertInto, List.count_append]
    omega

/-- C9: the run wrapper catches exactly the spurious `UnboundLocalError`
raised by the execution path on write-only statements; every other
exception class propagates, and in the run loop it aborts the run. -/
theorem unbound_local_error_only_caught :
    sparkRunGuarded (Except.error PyExc.unboundLocalError) = Except.ok () ∧
    (∀ e : PyExc, e ≠ PyExc.unboundLocalError →
      sparkRunGuarded (Except.error e) = Except.error e) ∧
    sparkRunGuarded (Except.ok ()) = Except.ok () ∧
    (∀ (e : PyExc) (rs : List (Except PyExc Unit)), e ≠ PyExc.unboundLocalError →
      runAllGuarded (Except.error e :: rs) = Except.error e) := by
  refine ⟨rfl, ?_, rfl, ?_⟩
  · intro e he
    cases e with
    | unboundLocalError => exact absurd rfl he
    | otherError c m => rfl
  · intro e rs he
    cases e with
    | unboundLocalError => exact absurd rfl he
    | otherError c m => rfl

/-- Witness for C9: a genuine engine failure (`AnalysisException`) is not
swallowed and aborts the remaining runs. -/
theorem unbound_local_error_only_caught_witness :
    sparkRunGuarded (Except.error (PyExc.otherError "AnalysisException" "table missing")) =
      Except.error (PyExc.otherError "AnalysisException" "table missing") ∧
    runAllGuarded [Except.error (PyExc.otherError "AnalysisException" "table missing"),
        Except.ok ()] =
      Except.error (PyExc.otherError "AnalysisException" "table missing") :=
  ⟨unbound_local_error_only_caught.2.1 _ (by decide),
    unbound_local_error_only_caught.2.2.2 _ [Except.ok ()] (by decide)⟩
